import Mathlib

/-
Verification of the local-game reconciliation and play-session time-tracking
core of the PlayStation2 Galaxy plugin (plugin.py).

The persisted ledger file game_times.json is modelled as an optional
association list from title id to record, together with a flag recording
whether the containing directory exists (os.makedirs raises when the
directory is already present). Python dict semantics (insertion order,
update-in-place, append-on-new-key) are modelled by dictGet / dictSet.
Python exceptions that the code can raise or swallow are modelled by the
PyError type and Except results.
-/

namespace PS2

/-- A catalog entry as produced by the backend strategies: id, name, rom path. -/
structure GameInfo where
  id : String
  name : String
  path : String
deriving DecidableEq

/-- The galaxy.api.consts LocalGameState values used by the plugin. -/
inductive LocalGameState where
  | none_
  | installed
  | running
deriving DecidableEq

/-- galaxy.api.types.LocalGame: a title id paired with its local state. -/
structure LocalGame where
  game_id : String
  state : LocalGameState
deriving DecidableEq

/-- One JSON value of game_times.json: name, time_played, last_time_played. -/
structure TimeRecord where
  name : Option String
  time_played : Int
  last_time_played : Option Int
deriving DecidableEq

/-- The parsed contents of game_times.json: a JSON object in key insertion order. -/
abbrev Ledger := List (String × TimeRecord)

/-- The filesystem state the code touches: whether the plugins ps2 directory
exists and the contents of game_times.json when the file exists. -/
structure FS where
  dirExists : Bool
  file : Option Ledger
deriving DecidableEq

/-- galaxy.api.types.GameTime as built by the plugin from a ledger entry. -/
structure GameTime where
  game_id : String
  time_played : Int
  last_played_time : Option Int
deriving DecidableEq

/-- The Python exceptions relevant to this core. -/
inductive PyError where
  | attributeError
  | fileNotFoundError
  | fileExistsError
deriving DecidableEq

/-- A subprocess.Popen handle: an identity and the current poll observation
(none while the process runs, some exit code once it has exited). -/
structure ProcInfo where
  pid : Nat
  poll : Option Int
deriving DecidableEq

/-- The mutable fields of PlayStation2Plugin used by this core. -/
structure PluginState where
  games : List GameInfo
  local_games_cache : List LocalGame
  proc : Option ProcInfo
  running_game_id : String
  tick_count : Nat
deriving DecidableEq

/-- Python dict lookup data.get(k) on the modelled JSON object. -/
def dictGet (d : Ledger) (k : String) : Option TimeRecord :=
  match d with
  | [] => none
  | kv :: rest => if kv.1 = k then some kv.2 else dictGet rest k

/-- Python dict assignment data[k] = v: replaces the value in place when the
key is present, appends the new key at the end otherwise. -/
def dictSet (d : Ledger) (k : String) (v : TimeRecord) : Ledger :=
  match d with
  | [] => [(k, v)]
  | kv :: rest => if kv.1 = k then (k, v) :: rest else kv :: dictSet rest k v

/-- _update_game_time(game_id, session_duration, last_time_played): opens
game_times.json (FileNotFoundError when absent), looks the title up
(data.get(game_id).get raises AttributeError when the title is absent),
adds the session duration to time_played, overwrites last_time_played,
writes the whole store back and emits the updated GameTime through
self.update_game_time. -/
def updateGameTime (fs : FS) (game_id : String) (session_duration : Int)
    (last_time_played : Int) : Except PyError (FS × GameTime) :=
  match fs.file with
  | none => .error .fileNotFoundError
  | some data =>
    match dictGet data game_id with
    | none => .error .attributeError
    | some r =>
      let t := r.time_played + session_duration
      let data2 := dictSet data game_id ⟨r.name, t, some last_time_played⟩
      .ok (⟨fs.dirExists, some data2⟩, ⟨game_id, t, some last_time_played⟩)

/-- The seeding loop of _get_games_times_dict: one zero-valued record per
catalog title, written into a fresh dict by assignment. -/
def seedData (games : List GameInfo) : Ledger :=
  games.foldl (fun d g => dictSet d g.id ⟨some g.name, 0, none⟩) []

/-- The final loop of _get_games_times_dict: the parsed file turned into one
GameTime per entry, in key order. -/
def ledgerToGameTimes (d : Ledger) : List GameTime :=
  d.map (fun kv => ⟨kv.1, kv.2.time_played, kv.2.last_time_played⟩)

/-- _get_games_times_dict: when game_times.json is absent the code first runs
os.makedirs on its directory, which raises FileExistsError when the
directory already exists; otherwise it creates the directory, writes the
seeded store and falls through to the read. The read parses the file and
returns one GameTime per entry. -/
def getGamesTimesDict (games : List GameInfo) (fs : FS) :
    Except PyError (FS × List GameTime) :=
  match fs.file with
  | some d => .ok (fs, ledgerToGameTimes d)
  | none =>
    if fs.dirExists then .error .fileExistsError
    else
      let d := seedData games
      .ok (⟨true, some d⟩, ledgerToGameTimes d)

/-- _local_games_list: every catalog title becomes a LocalGame in state
Installed, in catalog order. -/
def localGamesList (games : List GameInfo) : List LocalGame :=
  games.map (fun g => ⟨g.id, LocalGameState.installed⟩)

/-- Modelled from the spec: BackendClient._get_state_changes lives in
backend.py, which is not among the provided sources. Per the spec it
returns the subsequence of current whose (title_id, state) pair does not
exactly match the entry of previous with the same title id; a title absent
from previous is always considered changed. -/
def getStateChanges (previous current : List LocalGame) : List LocalGame :=
  current.filter
    (fun c => ! previous.any (fun p => p.game_id == c.game_id && p.state == c.state))

/-- _check_emu_status: self.proc.poll() raises AttributeError when self.proc
is None, and the surrounding try swallows exactly AttributeError (which the
missing-entry path of _update_game_time also raises). When the process has
exited, the session duration obtained from the backend and the current clock
reading, both passed here as parameters since BackendClient is an external
collaborator, feed _update_game_time, after which self.proc is cleared. -/
def checkEmuStatus (st : PluginState) (fs : FS) (dur now : Int) :
    Except PyError (PluginState × FS × Option GameTime) :=
  match st.proc with
  | none => .ok (st, fs, none)
  | some p =>
    match p.poll with
    | none => .ok (st, fs, none)
    | some _ =>
      match updateGameTime fs st.running_game_id dur now with
      | .ok (fs2, gt) => .ok ({ st with proc := none }, fs2, some gt)
      | .error .attributeError => .ok (st, fs, none)
      | .error e => .error e

/-- launch_game / _launch_game: unconditionally records the requested id as
running_game_id, then scans the catalog for the id and, at the first match,
stores the handle of the newly spawned emulator process and breaks. The
subprocess.Popen call is modelled by the caller-supplied fresh handle; the
argument list handed to the emulator (excluded from this core by the spec)
does not affect any observable modelled here. No check of an existing
session is performed anywhere on this path. -/
def launchGame (st : PluginState) (game_id : String) (newProc : ProcInfo) :
    PluginState :=
  let st1 := { st with running_game_id := game_id }
  match st1.games.find? (fun g => g.id == game_id) with
  | some _ => { st1 with proc := some newProc }
  | none => st1

/-- The two task bodies tick hands to create_task. -/
inductive ScheduledTask where
  | updateLocalGames
  | updateAllGameTimes
deriving DecidableEq

/-- _update_local_games: recomputes the snapshot, diffs it against the cached
previous snapshot, replaces the cache, and returns the statuses to forward
to update_local_game_status in order. -/
def updateLocalGamesTask (st : PluginState) : PluginState × List LocalGame :=
  let newList := localGamesList st.games
  let notif := getStateChanges st.local_games_cache newList
  ({ st with local_games_cache := newList }, notif)

/-- _update_all_game_times: sleeps 60 seconds, then runs _get_games_times_dict
and forwards every resulting GameTime to update_game_time. The first
component is the asyncio.sleep delay in seconds. -/
def updateAllGameTimesTask (st : PluginState) (fs : FS) :
    Nat × Except PyError (FS × List GameTime) :=
  (60, getGamesTimesDict st.games fs)

/-- tick: runs _check_emu_status synchronously, schedules the local-games
reconciliation task, increments tick_count, and on every fifth tick
additionally schedules the bulk game-times refresh task. -/
def tick (st : PluginState) (fs : FS) (dur now : Int) :
    Except PyError (PluginState × FS × Option GameTime × List ScheduledTask) := do
  let (st1, fs1, notif) ← checkEmuStatus st fs dur now
  let st2 := { st1 with tick_count := st1.tick_count + 1 }
  let tasks :=
    if st2.tick_count % 5 = 0 then
      [ScheduledTask.updateLocalGames, ScheduledTask.updateAllGameTimes]
    else
      [ScheduledTask.updateLocalGames]
  pure (st2, fs1, notif, tasks)

/-- Concrete catalog entry used by witnesses. -/
def gA : GameInfo := ⟨"1", "Game A", "/roms/a.iso"⟩

/-- Second concrete catalog entry used by witnesses. -/
def gB : GameInfo := ⟨"2", "Game B", "/roms/b.iso"⟩

/-- Concrete ledger record used by witnesses: 120 seconds, last played 1000. -/
def recA : TimeRecord := ⟨some "Game A", 120, some 1000⟩

/-- Concrete filesystem: directory present, ledger holding one record. -/
def fsA : FS := ⟨true, some [("1", recA)]⟩

/-- Concrete idle plugin state: no live process handle. -/
def stIdle : PluginState := ⟨[gA], [], none, "", 0⟩

theorem dictGet_dictSet_self (d : Ledger) (k : String) (v : TimeRecord) :
    dictGet (dictSet d k v) k = some v := by
  induction d with
  | nil => simp [dictGet, dictSet]
  | cons kv rest ih =>
    by_cases h : kv.1 = k
    · simp [dictSet, dictGet, h]
    · simp [dictSet, dictGet, h, ih]

theorem updateGameTime_some (fs : FS) (d : Ledger) (id : String) (r : TimeRecord)
    (dur t : Int) (hf : fs.file = some d) (hr : dictGet d id = some r) :
    updateGameTime fs id dur t =
      .ok (⟨fs.dirExists, some (dictSet d id ⟨r.name, r.time_played + dur, some t⟩)⟩,
        ⟨id, r.time_played + dur, some t⟩) := by
  simp [updateGameTime, hf, hr]

/-- C1: starting from a persisted ledger holding a record for the title,
two successive increments by d1 and then d2 succeed, and the persisted total
for the title ends at the pre-existing value plus d1 plus d2, with
last_time_played set by the second increment. -/
theorem increment_additive (fs : FS) (d : Ledger) (id : String) (r : TimeRecord)
    (d1 d2 t1 t2 : Int) (hf : fs.file = some d) (hr : dictGet d id = some r)
    (_h1 : 0 ≤ d1) (_h2 : 0 ≤ d2) :
    ∃ fs1 gt1 fs2 gt2, updateGameTime fs id d1 t1 = .ok (fs1, gt1) ∧
      updateGameTime fs1 id d2 t2 = .ok (fs2, gt2) ∧
      ∃ d2l, fs2.file = some d2l ∧
        dictGet d2l id = some ⟨r.name, r.time_played + d1 + d2, some t2⟩ := by
  have e1 := updateGameTime_some fs d id r d1 t1 hf hr
  have hr1 : dictGet (dictSet d id ⟨r.name, r.time_played + d1, some t1⟩) id =
      some ⟨r.name, r.time_played + d1, some t1⟩ := dictGet_dictSet_self d id _
  have e2 := updateGameTime_some ⟨fs.dirExists, some (dictSet d id ⟨r.name, r.time_played + d1, some t1⟩)⟩
      (dictSet d id ⟨r.name, r.time_played + d1, some t1⟩) id
      ⟨r.name, r.time_played + d1, some t1⟩ d2 t2 rfl hr1
  refine ⟨_, _, _, _, e1, e2, _, rfl, ?_⟩
  exact dictGet_dictSet_self _ id _

/-- C1 witness: from a record at 120 seconds, incrementing by 30 then by 40
leaves the title at 190 seconds with last_time_played 3000. -/
theorem increment_additive_witness :
    ∃ fs1 gt1 fs2 gt2, updateGameTime fsA "1" 30 2000 = .ok (fs1, gt1) ∧
      updateGameTime fs1 "1" 40 3000 = .ok (fs2, gt2) ∧
      ∃ d2l, fs2.file = some d2l ∧
        dictGet d2l "1" = some ⟨recA.name, recA.time_played + 30 + 40, some 3000⟩ :=
  increment_additive fsA [("1", recA)] "1" recA 30 40 2000 3000 rfl (by decide)
    (by decide) (by decide)

/-- C3 counterexample: on an existing but empty ledger, incrementing a title
with no entry does not zero-initialize and succeed as the claim states; it
fails with AttributeError. -/
theorem increment_missing_entry_cex :
    updateGameTime ⟨true, some []⟩ "1" 30 2000 = .error .attributeError := rfl

/-- C3 amended: with the ledger file present, increment succeeds exactly for
titles that already have an entry, adding the delta to the stored total and
overwriting last_time_played; for a title with no entry it raises
AttributeError instead of zero-initializing. -/
theorem increment_requires_entry (fs : FS) (d : Ledger) (id : String)
    (dur t : Int) (hf : fs.file = some d) :
    (dictGet d id = none → updateGameTime fs id dur t = .error .attributeError) ∧
    ∀ r, dictGet d id = some r →
      updateGameTime fs id dur t =
        .ok (⟨fs.dirExists, some (dictSet d id ⟨r.name, r.time_played + dur, some t⟩)⟩,
          ⟨id, r.time_played + dur, some t⟩) := by
  constructor
  · intro hn
    simp [updateGameTime, hf, hn]
  · intro r hr
    exact updateGameTime_some fs d id r dur t hf hr

/-- C3 amended witness: incrementing the existing 120-second record by 30 at
time 2000 persists 150 seconds and last_time_played 2000. -/
theorem increment_requires_entry_witness :
    updateGameTime fsA "1" 30 2000 =
      .ok (⟨fsA.dirExists,
          some (dictSet [("1", recA)] "1" ⟨recA.name, recA.time_played + 30, some 2000⟩)⟩,
        ⟨"1", recA.time_played + 30, some 2000⟩) :=
  (increment_requires_entry fsA [("1", recA)] "1" 30 2000 rfl).2 recA (by decide)

/-- C7: the session check with no live process handle returns without error,
mutates neither the plugin state nor the filesystem, and emits nothing. -/
theorem idle_check_noop (st : PluginState) (fs : FS) (dur now : Int)
    (h : st.proc = none) :
    checkEmuStatus st fs dur now = .ok (st, fs, none) := by
  simp [checkEmuStatus, h]

/-- C7 witness: the idle check at a concrete idle state and ledger. -/
theorem idle_check_noop_witness :
    checkEmuStatus stIdle fsA 5 9 = .ok (stIdle, fsA, none) :=
  idle_check_noop stIdle fsA 5 9 rfl

/-- C10: when the ledger file is absent but the containing directory exists,
the read-or-initialize operation raises (os.makedirs fails on the existing
directory) instead of seeding a fresh ledger. -/
theorem dir_exists_raises (games : List GameInfo) (fs : FS)
    (hfile : fs.file = none) (hdir : fs.dirExists = true) :
    getGamesTimesDict games fs = .error .fileExistsError := by
  simp [getGamesTimesDict, hfile, hdir]

/-- C10 witness: the raise at a concrete one-title catalog and a filesystem
with the directory present and the file absent. -/
theorem dir_exists_raises_witness :
    getGamesTimesDict [gA] ⟨true, none⟩ = .error .fileExistsError :=
  dir_exists_raises [gA] ⟨true, none⟩ rfl rfl

theorem dictSet_of_dictGet_none (d : Ledger) (k : String) (v : TimeRecord)
    (h : dictGet d k = none) : dictSet d k v = d ++ [(k, v)] := by
  induction d with
  | nil => rfl
  | cons kv rest ih =>
    by_cases hk : kv.1 = k
    · simp [dictGet, hk] at h
    · simp only [dictGet, hk, if_false] at h
      simp [dictSet, hk, ih h]

theorem dictGet_append (d1 d2 : Ledger) (k : String) :
    dictGet (d1 ++ d2) k =
      match dictGet d1 k with
      | some v => some v
      | none => dictGet d2 k := by
  induction d1 with
  | nil => simp [dictGet]
  | cons kv rest ih =>
    by_cases hk : kv.1 = k
    · simp [dictGet, hk]
    · simp [dictGet, hk, ih]

theorem seedData_go (games : List GameInfo) (acc : Ledger)
    (hdisj : ∀ g ∈ games, dictGet acc g.id = none)
    (hnd : (games.map GameInfo.id).Nodup) :
    games.foldl (fun d g => dictSet d g.id ⟨some g.name, 0, none⟩) acc =
      acc ++ games.map (fun g => (g.id, ⟨some g.name, 0, none⟩)) := by
  induction games generalizing acc with
  | nil => simp
  | cons g rest ih =>
    have hnd2 : (∀ x ∈ rest, ¬ x.id = g.id) ∧ (rest.map GameInfo.id).Nodup := by
      simpa using hnd
    have hacc : dictSet acc g.id ⟨some g.name, 0, none⟩ = acc ++ [(g.id, ⟨some g.name, 0, none⟩)] :=
      dictSet_of_dictGet_none acc g.id _ (hdisj g (List.mem_cons_self g rest))
    have hdisj2 : ∀ g2 ∈ rest, dictGet (acc ++ [(g.id, ⟨some g.name, 0, none⟩)]) g2.id = none := by
      intro g2 hg2
      rw [dictGet_append, hdisj g2 (List.mem_cons_of_mem g hg2)]
      have hne : g.id ≠ g2.id := fun he => hnd2.1 g2 hg2 he.symm
      simp [dictGet, hne]
    calc (g :: rest).foldl (fun d g => dictSet d g.id ⟨some g.name, 0, none⟩) acc
        = rest.foldl (fun d g => dictSet d g.id ⟨some g.name, 0, none⟩)
            (acc ++ [(g.id, ⟨some g.name, 0, none⟩)]) := by rw [List.foldl_cons, hacc]
      _ = acc ++ (g :: rest).map (fun g => (g.id, ⟨some g.name, 0, none⟩)) := by
            rw [ih _ hdisj2 hnd2.2]; simp

theorem seedData_eq (games : List GameInfo) (hnd : (games.map GameInfo.id).Nodup) :
    seedData games = games.map (fun g => (g.id, ⟨some g.name, 0, none⟩)) := by
  simpa using seedData_go games [] (fun g _ => rfl) hnd

/-- C4 counterexample: with the ledger file absent but the containing
directory present, load_or_init raises instead of creating the seeded file
and returning its contents, refuting the claim for that absent-file state. -/
theorem load_or_init_dir_exists_cex :
    getGamesTimesDict [gA] ⟨true, none⟩ = .error .fileExistsError ∧
    (Except.error PyError.fileExistsError ≠
      (Except.ok (⟨true, some [("1", ⟨some "Game A", 0, none⟩)]⟩, [⟨"1", 0, none⟩]) :
        Except PyError (FS × List GameTime))) := by
  exact ⟨rfl, by simp⟩

/-- C4 amended: when the ledger file is present, load_or_init parses and
returns it unmodified; when both the file and its containing directory are
absent, it creates the directory and the file seeded with exactly one
zero-valued record per catalog title, in catalog order, and returns the
parsed contents. When the file is absent but the directory exists it raises
instead. -/
theorem load_or_init_behavior (games : List GameInfo) (fs : FS)
    (hnd : (games.map GameInfo.id).Nodup) :
    (∀ d, fs.file = some d → getGamesTimesDict games fs = .ok (fs, ledgerToGameTimes d)) ∧
    (fs.file = none → fs.dirExists = false →
      getGamesTimesDict games fs =
        .ok (⟨true, some (games.map (fun g => (g.id, ⟨some g.name, 0, none⟩)))⟩,
          games.map (fun g => ⟨g.id, 0, none⟩))) := by
  constructor
  · intro d hd
    simp [getGamesTimesDict, hd]
  · intro hfile hdir
    simp only [getGamesTimesDict, hfile, hdir, if_false, Bool.false_eq_true]
    rw [seedData_eq games hnd]
    simp [ledgerToGameTimes, List.map_map, Function.comp]

/-- C4 witness: on a two-title catalog with the file and directory absent,
load_or_init creates the seeded store and returns the two zero records. -/
theorem load_or_init_behavior_witness :
    getGamesTimesDict [gA, gB] ⟨false, none⟩ =
      .ok (⟨true, some ([gA, gB].map (fun g => (g.id, ⟨some g.name, 0, none⟩)))⟩,
        [gA, gB].map (fun g => ⟨g.id, 0, none⟩)) :=
  (load_or_init_behavior [gA, gB] ⟨false, none⟩ (by decide)).2 rfl rfl

/-- C2 counterexample: on a one-title catalog with the file and directory
absent, the bulk refresh path creates the seeded ledger file and returns a
non-empty mapping, refuting both the never-creates and the empty-result
parts of the claim. -/
theorem readAll_creates_file_cex :
    (updateAllGameTimesTask stIdle ⟨false, none⟩).2 =
      .ok (⟨true, some [("1", ⟨some "Game A", 0, none⟩)]⟩, [⟨"1", 0, none⟩]) ∧
    (FS.mk true (some [("1", ⟨some "Game A", 0, none⟩)]) ≠ FS.mk false none) ∧
    ([(⟨"1", 0, none⟩ : GameTime)] ≠ ([] : List GameTime)) := by
  refine ⟨rfl, by decide, by simp⟩

/-- C2 amended: the bulk refresh path reuses the read-or-initialize
operation, so with the file absent it does not return an empty mapping over
an unchanged filesystem: if the containing directory is also absent it
creates the file seeded with one zero record per catalog title and returns
those records (empty only for an empty catalog), and if the directory
exists it raises; only when the file is present does it leave the
filesystem unchanged and return the parsed contents. -/
theorem readAll_seeds_when_absent (st : PluginState) :
    ((updateAllGameTimesTask st ⟨false, none⟩).2 =
      .ok (⟨true, some (seedData st.games)⟩, ledgerToGameTimes (seedData st.games))) ∧
    ((updateAllGameTimesTask st ⟨true, none⟩).2 = .error .fileExistsError) ∧
    (∀ b d, (updateAllGameTimesTask st ⟨b, some d⟩).2 = .ok (⟨b, some d⟩, ledgerToGameTimes d)) := by
  refine ⟨?_, ?_, ?_⟩ <;> simp [updateAllGameTimesTask, getGamesTimesDict]

/-- C5: a status belongs to the diff exactly when it belongs to current and
no entry of previous carries the same title id together with the same
state; consequently the diff of any snapshot against itself is empty. -/
theorem diff_minimal :
    (∀ previous current c, c ∈ getStateChanges previous current ↔
      c ∈ current ∧ ¬ ∃ p, p ∈ previous ∧ p.game_id = c.game_id ∧ p.state = c.state) ∧
    ∀ x, getStateChanges x x = [] := by
  have hmem : ∀ previous current c, c ∈ getStateChanges previous current ↔
      c ∈ current ∧ ¬ ∃ p, p ∈ previous ∧ p.game_id = c.game_id ∧ p.state = c.state := by
    intro previous current c
    simp [getStateChanges, List.mem_filter, List.any_eq_true, not_exists]
  refine ⟨hmem, fun x => ?_⟩
  rw [getStateChanges, List.filter_eq_nil_iff]
  intro c hc
  have hx : x.any (fun p => p.game_id == c.game_id && p.state == c.state) = true :=
    List.any_eq_true.mpr ⟨c, hc, by simp⟩
  simp [hx]

/-- C5 witness: the diff of a concrete one-element snapshot against itself
is empty. -/
theorem diff_minimal_witness :
    getStateChanges [⟨"1", LocalGameState.installed⟩] [⟨"1", LocalGameState.installed⟩] = [] :=
  diff_minimal.2 [⟨"1", LocalGameState.installed⟩]

/-- C6: the snapshot has one status per catalog title, the status at every
index carries the id of the title at the same index, and every produced
status is Installed. -/
theorem snapshot_installed (games : List GameInfo) :
    (localGamesList games).length = games.length ∧
    (∀ i : Nat, (localGamesList games)[i]? =
      (games[i]?).map (fun g => ⟨g.id, LocalGameState.installed⟩)) ∧
    (localGamesList games).all (fun lg => lg.state == LocalGameState.installed) = true := by
  refine ⟨by simp [localGamesList], fun i => by simp [localGamesList], ?_⟩
  simp [localGamesList, List.all_eq_true]

/-- Concrete live process handle used by witnesses. -/
def p1 : ProcInfo := ⟨1, none⟩

/-- Second concrete process handle used by witnesses. -/
def p2 : ProcInfo := ⟨2, none⟩

/-- Concrete plugin state with a session live for title 1. -/
def stRun : PluginState := ⟨[gA, gB], [], some p1, "1", 0⟩

/-- Concrete plugin state with tick counter 4 and no session. -/
def stT4 : PluginState := ⟨[gA], [], none, "", 4⟩

/-- C8 counterexample: with a session live for title 1, launching title 2
reports no error and replaces both the stored process handle and the
running title id, so the existing session is not kept and no
SessionAlreadyActive failure occurs. -/
theorem launch_replaces_session_cex :
    stRun.proc = some p1 ∧
    launchGame stRun "2" p2 = ⟨[gA, gB], [], some p2, "2", 0⟩ ∧
    some p2 ≠ some p1 := by
  refine ⟨rfl, by decide, by decide⟩

/-- C8 amended: a launch request issued in any state, a live session
included, never fails: running_game_id is unconditionally overwritten with
the requested id, the stored process handle is replaced by the newly
spawned process whenever the id is in the catalog and kept otherwise, and
the other fields are untouched. -/
theorem launch_overwrites_session (st : PluginState) (id : String) (p : ProcInfo) :
    (launchGame st id p).running_game_id = id ∧
    (launchGame st id p).proc =
      (if st.games.any (fun g => g.id == id) then some p else st.proc) ∧
    (launchGame st id p).games = st.games ∧
    (launchGame st id p).local_games_cache = st.local_games_cache ∧
    (launchGame st id p).tick_count = st.tick_count := by
  obtain ⟨games, cache, proc, rid, tc⟩ := st
  simp only [launchGame]
  cases hf : games.find? (fun g => g.id == id) with
  | none =>
    have ha : games.any (fun g => g.id == id) = false := by
      rw [List.any_eq_false]
      exact List.find?_eq_none.mp hf
    simp [ha]
  | some g =>
    have hg1 : g ∈ games := List.mem_of_find?_eq_some hf
    have hg2 := List.find?_some hf
    have ha : games.any (fun g => g.id == id) = true :=
      List.any_eq_true.mpr ⟨g, hg1, hg2⟩
    simp [ha]

theorem checkEmuStatus_ok_fields (st : PluginState) (fs : FS) (dur now : Int)
    (st1 : PluginState) (fs1 : FS) (notif : Option GameTime)
    (h : checkEmuStatus st fs dur now = .ok (st1, fs1, notif)) :
    st1.tick_count = st.tick_count ∧ st1.games = st.games ∧
      st1.local_games_cache = st.local_games_cache := by
  cases hp : st.proc with
  | none =>
    simp only [checkEmuStatus, hp, Except.ok.injEq, Prod.mk.injEq] at h
    rw [← h.1]
    exact ⟨rfl, rfl, rfl⟩
  | some p =>
    cases hq : p.poll with
    | none =>
      simp only [checkEmuStatus, hp, hq, Except.ok.injEq, Prod.mk.injEq] at h
      rw [← h.1]
      exact ⟨rfl, rfl, rfl⟩
    | some code =>
      cases hu : updateGameTime fs st.running_game_id dur now with
      | ok res =>
        obtain ⟨fs2, gt⟩ := res
        simp only [checkEmuStatus, hp, hq, hu, Except.ok.injEq, Prod.mk.injEq] at h
        rw [← h.1]
        exact ⟨rfl, rfl, rfl⟩
      | error e =>
        cases e with
        | attributeError =>
          simp only [checkEmuStatus, hp, hq, hu, Except.ok.injEq, Prod.mk.injEq] at h
          rw [← h.1]
          exact ⟨rfl, rfl, rfl⟩
        | fileNotFoundError => simp [checkEmuStatus, hp, hq, hu] at h
        | fileExistsError => simp [checkEmuStatus, hp, hq, hu] at h

/-- C9: when a tick returns, its result is the session check's result (run
first, carrying any ledger-increment notification) with tick_count advanced
by one; the reconciliation task is scheduled every tick and the bulk
refresh task exactly when the advanced counter is a multiple of five. The
reconciliation task replaces the cached snapshot with the fresh one and
returns the diff against the previous cache; the bulk refresh waits 60
seconds and, with the ledger file present, forwards one record per ledger
entry. -/
theorem tick_schedule (st : PluginState) (fs : FS) (dur now : Int)
    (st2 : PluginState) (fs2 : FS) (notif : Option GameTime)
    (tasks : List ScheduledTask)
    (h : tick st fs dur now = .ok (st2, fs2, notif, tasks)) :
    (∃ st1, checkEmuStatus st fs dur now = .ok (st1, fs2, notif) ∧
      st2 = { st1 with tick_count := st1.tick_count + 1 } ∧
      st2.tick_count = st.tick_count + 1) ∧
    (tasks = if (st.tick_count + 1) % 5 = 0 then
        [ScheduledTask.updateLocalGames, ScheduledTask.updateAllGameTimes]
      else [ScheduledTask.updateLocalGames]) ∧
    (updateLocalGamesTask st2).1.local_games_cache = localGamesList st2.games ∧
    (updateLocalGamesTask st2).2 =
      getStateChanges st2.local_games_cache (localGamesList st2.games) ∧
    (updateAllGameTimesTask st2 fs2).1 = 60 ∧
    (updateAllGameTimesTask st2 fs2).2 = getGamesTimesDict st2.games fs2 ∧
    (∀ d, fs2.file = some d →
      getGamesTimesDict st2.games fs2 = .ok (fs2, ledgerToGameTimes d)) := by
  unfold tick at h
  cases hc : checkEmuStatus st fs dur now with
  | error e =>
    rw [hc] at h
    simp [Bind.bind, Except.bind] at h
  | ok res =>
    obtain ⟨st1, fs1, nf⟩ := res
    rw [hc] at h
    have hfields := checkEmuStatus_ok_fields st fs dur now st1 fs1 nf hc
    simp only [Bind.bind, Except.bind, pure, Except.pure, Except.ok.injEq,
      Prod.mk.injEq] at h
    obtain ⟨h2, hfs, hnf, ht⟩ := h
    refine ⟨⟨st1, ?_, ?_, ?_⟩, ?_, by simp [updateLocalGamesTask],
      by simp [updateLocalGamesTask], rfl, rfl, ?_⟩
    · rw [hfs, hnf]
    · exact h2.symm
    · rw [← h2]
      simp [hfields.1]
    · rw [← ht]
      rw [hfields.1]
    · intro d hd
      simp [getGamesTimesDict, hd]

/-- C9 witness: at tick counter 4 with no session, the returned task list is
the fifth-tick one, both reconciliation and bulk refresh. -/
theorem tick_schedule_witness :
    [ScheduledTask.updateLocalGames, ScheduledTask.updateAllGameTimes] =
      (if (stT4.tick_count + 1) % 5 = 0 then
        [ScheduledTask.updateLocalGames, ScheduledTask.updateAllGameTimes]
      else [ScheduledTask.updateLocalGames]) :=
  (tick_schedule stT4 fsA 0 0 ⟨[gA], [], none, "", 5⟩ fsA none
    [ScheduledTask.updateLocalGames, ScheduledTask.updateAllGameTimes] rfl).2.1

end PS2
